import Mathlib

/-!
Verification of the NewsApp fetch-aggregate-dedupe-cache pipeline.

Shallow embedding of the program:
  - src/models.py           : Category, Article
  - src/api/__init__.py     : NewsHandler._fetch_text, fetch_from_rss (per-entry
                              normalisation), fetch_category (task building,
                              gather, merge/dedupe)
  - src/cache/__init__.py   : CacheManager.save_articles, get_articles

Network and the asyncio event loop are modelled by explicit parameters: an HTTP
outcome value for a single request, an environment mapping each submitted task
to its result, and a completion-order list for the scheduler.  Timestamps are
integers (seconds); the SQLite TEXT comparison on isoformat strings of
datetime.utcnow agrees with chronological order (fixed-width fields, no
timezone suffix), so an integer comparison is a faithful model.
-/

namespace NewsApp

/-- Category enum from src/models.py (the 17 wire values). -/
inductive Category where
  | breaking
  | agentic_ai_dev
  | agentic_ai_bus
  | us
  | world
  | tech
  | business
  | deals
  | sports
  | entertainment
  | science
  | manufacturing
  | life_sciences
  | automotive
  | aviation
  | ecommerce
  | agentic_ai
  deriving DecidableEq, Repr

/-- Category.value: the string tag of each enum member (src/models.py). -/
def Category.value : Category → String
  | .breaking => "breaking"
  | .agentic_ai_dev => "agentic_ai_dev"
  | .agentic_ai_bus => "agentic_ai_business"
  | .us => "us"
  | .world => "world"
  | .tech => "tech"
  | .business => "business"
  | .deals => "deals"
  | .sports => "sports"
  | .entertainment => "entertainment"
  | .science => "science"
  | .manufacturing => "manufacturing"
  | .life_sciences => "life_sciences"
  | .automotive => "automotive"
  | .aviation => "aviation"
  | .ecommerce => "ecommerce"
  | .agentic_ai => "agentic_ai"

/-- Inverse of Category.value: Category(s) in Python, none where Python would
raise ValueError. -/
def Category.ofValue (s : String) : Option Category :=
  if s = "breaking" then some .breaking
  else if s = "agentic_ai_dev" then some .agentic_ai_dev
  else if s = "agentic_ai_business" then some .agentic_ai_bus
  else if s = "us" then some .us
  else if s = "world" then some .world
  else if s = "tech" then some .tech
  else if s = "business" then some .business
  else if s = "deals" then some .deals
  else if s = "sports" then some .sports
  else if s = "entertainment" then some .entertainment
  else if s = "science" then some .science
  else if s = "manufacturing" then some .manufacturing
  else if s = "life_sciences" then some .life_sciences
  else if s = "automotive" then some .automotive
  else if s = "aviation" then some .aviation
  else if s = "ecommerce" then some .ecommerce
  else if s = "agentic_ai" then some .agentic_ai
  else none

/-- Article dataclass from src/models.py.  datetimes are integer seconds. -/
structure Article where
  id : String
  headline : String
  summary : String
  source : String
  category : Category
  url : String
  author : Option String := none
  published_at : Option Int := none
  image_url : Option String := none
  content : Option String := none
  read_time_minutes : Option Int := none
  tags : List String := []
  is_read : Bool := false
  is_bookmarked : Bool := false
  cached_at : Option Int := none
  deriving DecidableEq, Repr

/-! ### Fetcher: NewsHandler._fetch_text (src/api/__init__.py lines 23-36) -/

/-- What the one HTTP GET did: a response with a status and a body, or an
exception (timeout, network failure, ...) raised inside the try block. -/
inductive HttpOutcome where
  | response (status : Nat) (body : String)
  | failure
  deriving DecidableEq, Repr

/-- _fetch_text: returns the body unless the status is not 200 or an exception
was raised, in which case it logs and returns None. -/
def fetch_text : HttpOutcome → Option String
  | .response status body => if status != 200 then none else some body
  | .failure => none

/-! ### Feed parser: per-entry normalisation in NewsHandler.fetch_from_rss
(src/api/__init__.py lines 51-69) -/

/-- A feedparser entry as fetch_from_rss reads it: entry.get(k) is none when
the key is absent. -/
structure FeedEntry where
  id : Option String := none
  link : Option String := none
  title : Option String := none
  summary : Option String := none
  description : Option String := none
  author : Option String := none
  published_parsed : Option Int := none
  deriving DecidableEq, Repr

/-- Python `a or b` on optional strings: None and the empty string are falsy. -/
def pyOr (a b : Option String) : Option String :=
  match a with
  | some s => if s = "" then b else some s
  | none => b

/-- Python str() applied to an optional string: str(None) is the literal
string "None". -/
def pyStr : Option String → String
  | none => "None"
  | some s => s

/-- Body of the entry loop in fetch_from_rss: builds one Article from one
feedparser entry.  article_id = entry.get('id') or entry.get('link') or
entry.get('title'); summary = entry.get('summary') or entry.get('description')
or ''. -/
def entryArticle (e : FeedEntry) (source_name : String) (category : Category) : Article :=
  { id := pyStr (pyOr (pyOr e.id e.link) e.title)
    headline := (e.title.getD "").take 300
    summary := ((pyOr e.summary e.description).getD "").take 1000
    source := source_name
    category := category
    url := e.link.getD ""
    author := e.author
    published_at := e.published_parsed }

/-- fetch_from_rss after a successful fetch and parse: the first `limit`
entries, in feed order, each normalised by entryArticle. -/
def fetch_from_rss (entries : List FeedEntry) (source_name : String)
    (category : Category) (limit : Nat) : List Article :=
  (entries.take limit).map (fun e => entryArticle e source_name category)

/-! ### Aggregator: NewsHandler.fetch_category (src/api/__init__.py 107-135) -/

/-- One submitted coroutine: fetch_from_rss(url, name, ...) for a feed dict,
fetch_from_scrape(url, sel, name, ...) for a scraping dict. -/
inductive FetchTask where
  | rss (url : String) (name : String)
  | scrape (url : String) (selector : String) (name : String)
  deriving DecidableEq, Repr

/-- A feed dict f: f['url'] is mandatory, f.get('name', 'rss') optional. -/
structure FeedDict where
  url : String
  name : Option String := none
  deriving DecidableEq, Repr

/-- The 'selectors' value of a scraping dict: absent, a dict (ordered keys), a
string, or some other type. -/
inductive SelectorSpec where
  | absent
  | dict (keys : List String)
  | str (s : String)
  | other
  deriving DecidableEq, Repr

/-- A scraping dict s: s['url'], s.get('name', 'scrape'), s.get('selectors'). -/
structure ScrapeDict where
  url : String
  name : Option String := none
  selectors : SelectorSpec := .absent
  deriving DecidableEq, Repr

/-- Selector resolution in fetch_category: first key when selectors is a dict
(next(iter(selector.keys()), None)), the string itself when it is a string,
None otherwise. -/
def resolveSelector : SelectorSpec → Option String
  | .dict keys => keys.head?
  | .str s => some s
  | .absent => none
  | .other => none

/-- `if sel:` guard — the task is only appended when sel is truthy (not None
and not the empty string). -/
def scrapeTask (s : ScrapeDict) : Option FetchTask :=
  match resolveSelector s.selectors with
  | some sel => if sel = "" then none else some (.scrape s.url sel (s.name.getD "scrape"))
  | none => none

/-- Task list built by fetch_category lines 109-121: one rss task per feed in
config order, then one scrape task per scraping dict with a usable selector,
in config order. -/
def buildTasks (feeds : List FeedDict) (scraping : List ScrapeDict) : List FetchTask :=
  feeds.map (fun f => .rss f.url (f.name.getD "rss"))
    ++ scraping.filterMap scrapeTask

/-- Outcome of one task under asyncio.gather(return_exceptions=True): an
exception value or a list of articles. -/
abbrev FetchResult := Except String (List Article)

deriving instance DecidableEq for Except

/-- The articles a result contributes in the merge loop: an exception
contributes none (it is only logged). -/
def taskArticles : FetchResult → List Article
  | .error _ => []
  | .ok l => l

/-- The seen-set dedupe loop of fetch_category lines 130-134, threaded over
the concatenated results: an article whose id was already seen is skipped,
otherwise it is appended and its id recorded. -/
def dedupById (seen : List String) : List Article → List Article
  | [] => []
  | a :: rest =>
      if a.id ∈ seen then dedupById seen rest
      else a :: dedupById (a.id :: seen) rest

/-- fetch_category lines 123-135 given the per-task results in submission
order: skip exceptions, walk each result list in order with one shared seen
set. -/
def mergeResults (results : List FetchResult) : List Article :=
  dedupById [] (results.flatMap taskArticles)

/-- fetch_category given the source lists and an environment assigning each
task its result. -/
def fetch_category (feeds : List FeedDict) (scraping : List ScrapeDict)
    (env : FetchTask → FetchResult) : List Article :=
  mergeResults ((buildTasks feeds scraping).map env)

/-! ### Completion-order model of asyncio.gather

gather(*tasks) allocates one slot per task; each task, when it completes,
writes its result into its own slot; the awaited value reads the slots in
submission order.  `order` lists the task indices in completion order. -/

/-- Fill the slots as tasks complete, in completion order. -/
def fillSlots (tasks : List FetchTask) (env : FetchTask → FetchResult) :
    List Nat → List (Option FetchResult) → List (Option FetchResult)
  | [], slots => slots
  | i :: rest, slots => fillSlots tasks env rest (slots.set i (tasks[i]?.map env))

/-- The list asyncio.gather returns: slots read back in submission order once
every task has completed. -/
def gather (tasks : List FetchTask) (env : FetchTask → FetchResult)
    (order : List Nat) : List FetchResult :=
  (fillSlots tasks env order (List.replicate tasks.length none)).reduceOption

/-- fetch_category with the scheduler made explicit: merge whatever gather
returned under the given completion order. -/
def fetch_category_timed (feeds : List FeedDict) (scraping : List ScrapeDict)
    (env : FetchTask → FetchResult) (order : List Nat) : List Article :=
  mergeResults (gather (buildTasks feeds scraping) env order)

/-! ### Cache store: CacheManager (src/cache/__init__.py) -/

/-- One row of the articles table.  category is stored as its string tag,
timestamps as isoformat TEXT (modelled as integer seconds), tags as a JSON
array (the JSON round trip is the identity on lists of strings, so the list
itself is stored), booleans as 0/1 (modelled as Bool). -/
structure Row where
  id : String
  headline : String
  summary : String
  source : String
  category : String
  url : String
  author : Option String
  published_at : Option Int
  image_url : Option String
  content : Option String
  read_time : Option Int
  tags : List String
  is_read : Bool
  is_bookmarked : Bool
  cached_at : Option Int
  deriving DecidableEq, Repr

/-- The tuple save_articles binds for one article (lines 59-75): category by
.value, cached_at = (a.cached_at or datetime.utcnow()).isoformat(). -/
def rowOfArticle (a : Article) (now : Int) : Row :=
  { id := a.id
    headline := a.headline
    summary := a.summary
    source := a.source
    category := a.category.value
    url := a.url
    author := a.author
    published_at := a.published_at
    image_url := a.image_url
    content := a.content
    read_time := a.read_time_minutes
    tags := a.tags
    is_read := a.is_read
    is_bookmarked := a.is_bookmarked
    cached_at := some (a.cached_at.getD now) }

/-- INSERT OR REPLACE keyed by the id primary key: replace the existing row
with that id, else append. -/
def upsert (db : List Row) (r : Row) : List Row :=
  if db.any (fun x => x.id = r.id) then
    db.map (fun x => if x.id = r.id then r else x)
  else db ++ [r]

/-- save_articles: upsert each article in order, all at the same utcnow. -/
def save_articles (db : List Row) (articles : List Article) (now : Int) : List Row :=
  articles.foldl (fun d a => upsert d (rowOfArticle a now)) db

/-- The WHERE clause of get_articles: category = ? (only when a category was
given) AND cached_at >= cutoff (only when max_age_hours was given; a NULL
cached_at never satisfies the SQL comparison). -/
def rowMatches (category : Option Category) (max_age_hours : Option Int)
    (now : Int) (r : Row) : Bool :=
  (match category with
   | some c => r.category = c.value
   | none => true)
  && (match max_age_hours with
      | some h =>
          match r.cached_at with
          | some t => decide (now - h * 3600 ≤ t)
          | none => false
      | none => true)

/-- ORDER BY published_at DESC: larger timestamps first; SQLite sorts NULL
below every value, so NULL rows come last under DESC. -/
def pubDescLe (r₁ r₂ : Row) : Bool :=
  match r₁.published_at, r₂.published_at with
  | some a, some b => decide (b ≤ a)
  | some _, none => true
  | none, some _ => false
  | none, none => true

/-- Insertion step of the ORDER BY model. -/
def insertByPub (r : Row) : List Row → List Row
  | [] => [r]
  | x :: xs => if pubDescLe r x then r :: x :: xs else x :: insertByPub r xs

/-- The ORDER BY published_at DESC sort. -/
def sortByPubDesc : List Row → List Row
  | [] => []
  | r :: rs => insertByPub r (sortByPubDesc rs)

/-- Row-to-Article reconstruction shared by get_articles and
get_bookmarked_articles (lines 106-122).  Category(r['category']) raises
ValueError on an unknown tag; rows written by save_articles always carry a
valid tag, so the getD default is unreachable in every statement below. -/
def articleOfRow (r : Row) : Article :=
  { id := r.id
    headline := r.headline
    summary := r.summary
    source := r.source
    category := if r.category = "" then Category.us
                else (Category.ofValue r.category).getD Category.us
    url := r.url
    author := r.author
    published_at := r.published_at
    image_url := r.image_url
    content := r.content
    read_time_minutes := r.read_time
    tags := r.tags
    is_read := r.is_read
    is_bookmarked := r.is_bookmarked
    cached_at := r.cached_at }

/-- get_articles: filter by the WHERE clause, sort newest published first,
take LIMIT rows, rebuild articles. -/
def get_articles (db : List Row) (category : Option Category)
    (max_age_hours : Option Int) (limit : Nat) (now : Int) : List Article :=
  (((sortByPubDesc (db.filter (rowMatches category max_age_hours now))).take limit).map
    articleOfRow)

/-- Equality on every Article field except cached_at. -/
def sameExceptCachedAt (a b : Article) : Prop :=
  a.id = b.id ∧ a.headline = b.headline ∧ a.summary = b.summary ∧
  a.source = b.source ∧ a.category = b.category ∧ a.url = b.url ∧
  a.author = b.author ∧ a.published_at = b.published_at ∧
  a.image_url = b.image_url ∧ a.content = b.content ∧
  a.read_time_minutes = b.read_time_minutes ∧ a.tags = b.tags ∧
  a.is_read = b.is_read ∧ a.is_bookmarked = b.is_bookmarked

instance (a b : Article) : Decidable (sameExceptCachedAt a b) := by
  unfold sameExceptCachedAt; infer_instance

/-- Boolean test used to count or locate the articles with a given id. -/
def hasId (x : String) (a : Article) : Bool :=
  a.id = x

/-- Boolean test used to locate the row with a given id. -/
def rowHasId (x : String) (r : Row) : Bool :=
  r.id = x

/-! ### Concrete data for the closed instances below -/

/-- A plain article as the fetch pipeline produces it (no cached_at). -/
def sampleArticle : Article :=
  { id := "a1", headline := "h", summary := "s", source := "src",
    category := .tech, url := "http://e/a1" }

/-- An article that was read back from the cache: cached_at is set (to 0). -/
def staleArticle : Article :=
  { sampleArticle with id := "a2", cached_at := some 0 }

/-- First source's article with the duplicated id. -/
def artA : Article :=
  { id := "dup", headline := "hA", summary := "", source := "s1",
    category := .tech, url := "uA" }

/-- Second source's article with the same id as artA. -/
def artB : Article :=
  { id := "dup", headline := "hB", summary := "", source := "s2",
    category := .tech, url := "uB" }

/-- A second, distinct article from the second source. -/
def artC : Article :=
  { id := "c", headline := "hC", summary := "", source := "s2",
    category := .tech, url := "uC" }

/-- Two configured feed sources. -/
def feedsW : List FeedDict :=
  [{ url := "f1" }, { url := "f2" }]

/-- One configured scraping source with a string selector. -/
def scrapingW : List ScrapeDict :=
  [{ url := "s1", selectors := .str "div.item" }]

/-- A fixed environment: both feeds succeed (with a duplicate id across them),
the scrape task raises. -/
def envW : FetchTask → FetchResult
  | .rss "f1" _ => .ok [artA]
  | .rss "f2" _ => .ok [artB, artC]
  | _ => .error "boom"

/-- A feedparser entry whose id key is present but empty, with a link. -/
def entryEmptyId : FeedEntry :=
  { id := some "", link := some "http://x" }

/-- A feedparser entry with no id, no link and no title. -/
def entryBare : FeedEntry :=
  { summary := some "text" }

/-- A feedparser entry with a non-empty id, link and title. -/
def entryFullId : FeedEntry :=
  { id := some "A", link := some "L", title := some "T" }

/-- An environment where two feeds each yield one id-less entry's article. -/
def envN : FetchTask → FetchResult
  | .rss "f1" _ => .ok [entryArticle entryBare "s1" Category.tech]
  | .rss "f2" _ => .ok [entryArticle entryBare "s2" Category.us]
  | _ => .error "boom"

/-! ### Lemmas about the dedupe loop -/

theorem hasId_eq_true {x : String} {a : Article} : hasId x a = true ↔ a.id = x := by
  simp [hasId]

theorem dedup_countP_of_mem (x : String) (l : List Article) :
    ∀ seen : List String, x ∈ seen → (dedupById seen l).countP (hasId x) = 0 := by
  induction l with
  | nil => intro seen _; simp [dedupById]
  | cons a rest ih =>
    intro seen h
    by_cases hmem : a.id ∈ seen
    · simp only [dedupById, if_pos hmem]
      exact ih seen h
    · have hax : hasId x a = false := by
        simp only [hasId, decide_eq_false_iff_not]
        intro he
        exact hmem (he ▸ h)
      simp only [dedupById, if_neg hmem, List.countP_cons, hax, if_false]
      simpa using ih (a.id :: seen) (List.mem_cons_of_mem _ h)

theorem dedup_countP_of_not_mem (x : String) (l : List Article) :
    ∀ seen : List String, x ∉ seen →
      (dedupById seen l).countP (hasId x) = min (l.countP (hasId x)) 1 := by
  induction l with
  | nil => intro seen _; simp [dedupById]
  | cons a rest ih =>
    intro seen h
    by_cases hmem : a.id ∈ seen
    · have hax : hasId x a = false := by
        simp only [hasId, decide_eq_false_iff_not]
        intro he
        exact h (he ▸ hmem)
      simp only [dedupById, if_pos hmem, List.countP_cons, hax, if_false, Nat.add_zero]
      exact ih seen h
    · by_cases hax : a.id = x
      · have hx : hasId x a = true := hasId_eq_true.mpr hax
        have hzero : (dedupById (a.id :: seen) rest).countP (hasId x) = 0 :=
          dedup_countP_of_mem x rest (a.id :: seen) (by simp [hax])
        simp only [dedupById, if_neg hmem, List.countP_cons, hx, if_true, hzero,
          Nat.zero_add]
        omega
      · have hx : hasId x a = false := by simp [hasId, hax]
        have hnot : x ∉ a.id :: seen := by
          intro hc
          rcases List.mem_cons.mp hc with hc | hc
          · exact hax hc.symm
          · exact h hc
        simp only [dedupById, if_neg hmem, List.countP_cons, hx, if_false, Nat.add_zero]
        exact ih (a.id :: seen) hnot

theorem dedup_find?_of_not_mem (x : String) (l : List Article) :
    ∀ seen : List String, x ∉ seen →
      (dedupById seen l).find? (hasId x) = l.find? (hasId x) := by
  induction l with
  | nil => intro seen _; simp [dedupById]
  | cons a rest ih =>
    intro seen h
    by_cases hmem : a.id ∈ seen
    · have hax : hasId x a = false := by
        simp only [hasId, decide_eq_false_iff_not]
        intro he
        exact h (he ▸ hmem)
      simp only [dedupById, if_pos hmem, List.find?_cons, hax]
      exact ih seen h
    · by_cases hax : a.id = x
      · have hx : hasId x a = true := hasId_eq_true.mpr hax
        simp only [dedupById, if_neg hmem, List.find?_cons, hx]
      · have hx : hasId x a = false := by simp [hasId, hax]
        have hnot : x ∉ a.id :: seen := by
          intro hc
          rcases List.mem_cons.mp hc with hc | hc
          · exact hax hc.symm
          · exact h hc
        simp only [dedupById, if_neg hmem, List.find?_cons, hx]
        exact ih (a.id :: seen) hnot

theorem dedup_sublist (l : List Article) :
    ∀ seen : List String, (dedupById seen l).Sublist l := by
  induction l with
  | nil => intro seen; simp [dedupById]
  | cons a rest ih =>
    intro seen
    by_cases hmem : a.id ∈ seen
    · simp only [dedupById, if_pos hmem]
      exact (ih seen).cons a
    · simp only [dedupById, if_neg hmem]
      exact (ih (a.id :: seen)).cons₂ a

theorem dedup_ne_nil (l : List Article) (h : l ≠ []) : dedupById [] l ≠ [] := by
  cases l with
  | nil => exact absurd rfl h
  | cons a rest => simp [dedupById]

/-- mergeResults keeps exactly one article per id that occurs in the inputs. -/
theorem mergeResults_countP_eq_one (results : List FetchResult) (x : String)
    (h : ∃ a ∈ results.flatMap taskArticles, a.id = x) :
    (mergeResults results).countP (hasId x) = 1 := by
  have hpos : 0 < (results.flatMap taskArticles).countP (hasId x) := by
    rw [List.countP_pos_iff]
    rcases h with ⟨a, ha, hid⟩
    exact ⟨a, ha, hasId_eq_true.mpr hid⟩
  rw [mergeResults, dedup_countP_of_not_mem x _ [] (List.not_mem_nil x)]
  omega

/-- The survivor for an id is the first occurrence in submission order. -/
theorem mergeResults_find? (results : List FetchResult) (x : String) :
    (mergeResults results).find? (hasId x) =
      (results.flatMap taskArticles).find? (hasId x) :=
  dedup_find?_of_not_mem x _ [] (List.not_mem_nil x)

/-! ### Lemmas about failure handling and the scheduler model -/

/-- Tasks that raised contribute nothing to the concatenated article list. -/
theorem flatMap_filter_isOk (results : List FetchResult) :
    (results.filter (fun r => r.isOk)).flatMap taskArticles =
      results.flatMap taskArticles := by
  induction results with
  | nil => rfl
  | cons r rs ih =>
    cases r with
    | error e =>
        have hok : (Except.error e : FetchResult).isOk = false := rfl
        simp only [List.filter_cons, hok, if_false, List.flatMap_cons, taskArticles]
        simpa using ih
    | ok l =>
        have hok : (Except.ok l : FetchResult).isOk = true := rfl
        simp only [List.filter_cons, hok, if_true, List.flatMap_cons, taskArticles]
        rw [ih]

theorem flatMap_eq_nil_of_all_nil (results : List FetchResult)
    (h : ∀ r ∈ results, taskArticles r = []) :
    results.flatMap taskArticles = [] := by
  induction results with
  | nil => rfl
  | cons r rs ih =>
    rw [List.flatMap_cons, h r (List.mem_cons_self r rs),
      ih (fun x hx => h x (List.mem_cons_of_mem r hx))]
    rfl

theorem reduceOption_map_some {α : Type} (l : List α) :
    (l.map some).reduceOption = l := by
  induction l with
  | nil => rfl
  | cons x xs ih => simp [List.reduceOption_cons_of_some, ih]

/-- After processing a completion list, slot j holds task j's result exactly
when j completed and j is a real slot; other slots are untouched. -/
theorem fillSlots_getElem? (tasks : List FetchTask) (env : FetchTask → FetchResult)
    (order : List Nat) :
    ∀ (slots : List (Option FetchResult)) (j : Nat),
      (fillSlots tasks env order slots)[j]? =
        if j ∈ order ∧ j < slots.length then some (tasks[j]?.map env)
        else slots[j]? := by
  induction order with
  | nil => intro slots j; simp [fillSlots]
  | cons i rest ih =>
    intro slots j
    simp only [fillSlots]
    rw [ih]
    by_cases hre : j ∈ rest
    · by_cases hlen : j < slots.length
      · simp [hre, hlen, List.length_set]
      · simp only [List.length_set, hre, hlen, and_false, if_false]
        rw [List.getElem?_set]
        by_cases hij : i = j
        · subst hij
          simp only [if_pos rfl, if_neg hlen]
          exact (List.getElem?_eq_none (Nat.le_of_not_lt hlen)).symm
        · simp [hij]
    · by_cases hij : i = j
      · subst hij
        by_cases hlen : i < slots.length
        · simp only [List.length_set, hre, false_and, if_false, List.getElem?_set,
            if_pos rfl, if_pos hlen]
          simp [hlen]
        · simp only [List.length_set, hre, false_and, if_false, List.getElem?_set,
            if_pos rfl, if_neg hlen]
          simp only [List.mem_cons, hre, or_false]
          simp only [hlen, and_false, if_false]
          exact (List.getElem?_eq_none (Nat.le_of_not_lt hlen)).symm
      · simp only [List.length_set, hre, false_and, if_false, List.getElem?_set,
          if_neg hij]
        have hji : ¬j = i := fun hc => hij hc.symm
        simp [hji, hre]

/-- With every task completed (in any order), gather hands back the results
indexed by submission order: completion order is invisible. -/
theorem gather_eq (tasks : List FetchTask) (env : FetchTask → FetchResult)
    (order : List Nat) (h : order.Perm (List.range tasks.length)) :
    gather tasks env order = tasks.map env := by
  have hmem : ∀ i, i ∈ order ↔ i < tasks.length := by
    intro i
    rw [h.mem_iff, List.mem_range]
  have hslots : fillSlots tasks env order (List.replicate tasks.length none) =
      (tasks.map env).map some := by
    apply List.ext_getElem?
    intro j
    rw [fillSlots_getElem?]
    by_cases hj : j < tasks.length
    · have hjo : j ∈ order := (hmem j).mpr hj
      simp only [List.length_replicate, hjo, hj, and_self, if_true]
      rw [List.getElem?_map, List.getElem?_map, List.getElem?_eq_getElem hj]
      rfl
    · have hjo : j ∉ order := fun hc => hj ((hmem j).mp hc)
      simp only [List.length_replicate, hjo, false_and, if_false,
        List.getElem?_replicate, if_neg hj, List.getElem?_map, List.getElem?_map,
        List.getElem?_eq_none (Nat.le_of_not_lt (fun hc => hj hc))]
      rfl
  rw [gather, hslots, reduceOption_map_some]

/-! ### Lemmas about the cache store -/

theorem value_ne_empty (c : Category) : c.value ≠ "" := by
  cases c <;> decide

theorem ofValue_value (c : Category) : Category.ofValue c.value = some c := by
  cases c <;> rfl

/-- Reading back the row save_articles writes recovers every field of the
article except possibly cached_at. -/
theorem articleOfRow_rowOfArticle (a : Article) (now : Int) :
    sameExceptCachedAt a (articleOfRow (rowOfArticle a now)) := by
  refine ⟨rfl, rfl, rfl, rfl, ?_, rfl, rfl, rfl, rfl, rfl, rfl, rfl, rfl, rfl⟩
  show a.category = (articleOfRow (rowOfArticle a now)).category
  simp [articleOfRow, rowOfArticle, value_ne_empty a.category, ofValue_value]

theorem find?_map_replace (r : Row) (db : List Row)
    (h : ∃ x ∈ db, x.id = r.id) :
    (db.map (fun x => if x.id = r.id then r else x)).find? (rowHasId r.id) =
      some r := by
  induction db with
  | nil => simp at h
  | cons x xs ih =>
    by_cases hx : x.id = r.id
    · simp [List.find?_cons, hx, rowHasId]
    · have hxs : ∃ y ∈ xs, y.id = r.id := by
        rcases h with ⟨y, hy, hid⟩
        rcases List.mem_cons.mp hy with hy | hy
        · exact absurd (hy ▸ hid) hx
        · exact ⟨y, hy, hid⟩
      simp only [List.map_cons, List.find?_cons, if_neg hx]
      have hfalse : rowHasId r.id x = false := by simp [rowHasId, hx]
      rw [hfalse]
      exact ih hxs

/-- After an upsert, looking the id up finds exactly the new row. -/
theorem find?_upsert (db : List Row) (r : Row) :
    (upsert db r).find? (rowHasId r.id) = some r := by
  unfold upsert
  by_cases hany : db.any (fun x => x.id = r.id)
  · rw [if_pos hany]
    apply find?_map_replace
    exact (by simpa using hany : ∃ x ∈ db, x.id = r.id)
  · rw [if_neg hany]
    rw [List.find?_append]
    have hnone : db.find? (rowHasId r.id) = none := by
      rw [List.find?_eq_none]
      intro x hx hc
      have : x.id = r.id := by simpa [rowHasId] using hc
      exact hany (List.any_eq_true.mpr ⟨x, hx, by simpa using this⟩)
    rw [hnone]
    simp [rowHasId]

/-! ### The claims -/

/-- Claim C1: fetch_category deduplicates by id.  Whenever any task result
contains an article with id x — in particular when two sources both do — the
merged list contains exactly one article with that id, and it is the first
occurrence in task-submission order; every later occurrence of an
already-seen id is dropped. -/
theorem fetch_category_dedup_first_wins (feeds : List FeedDict)
    (scraping : List ScrapeDict) (env : FetchTask → FetchResult) (x : String)
    (h : ∃ a ∈ ((buildTasks feeds scraping).map env).flatMap taskArticles, a.id = x) :
    (fetch_category feeds scraping env).countP (hasId x) = 1 ∧
    (fetch_category feeds scraping env).find? (hasId x) =
      (((buildTasks feeds scraping).map env).flatMap taskArticles).find? (hasId x) :=
  ⟨mergeResults_countP_eq_one _ x h, mergeResults_find? _ x⟩

/-- Claim C1 witness: two feeds both yield an article with id "dup"; the
merged list keeps exactly one copy, the first source's. -/
theorem fetch_category_dedup_first_wins_witness :
    (fetch_category feedsW [] envW).countP (hasId "dup") = 1 ∧
    (fetch_category feedsW [] envW).find? (hasId "dup") =
      (((buildTasks feedsW []).map envW).flatMap taskArticles).find? (hasId "dup") :=
  fetch_category_dedup_first_wins feedsW [] envW "dup" (by decide)

/-- Claim C2: partial failure.  When at least one task raised and at least one
succeeded with a non-empty article list, fetch_category returns a non-empty
list, equal to the merge of the successful results alone (a failed task
contributes zero articles), and every returned article comes from a
successful task; the failure is not propagated. -/
theorem fetch_category_partial_failure (feeds : List FeedDict)
    (scraping : List ScrapeDict) (env : FetchTask → FetchResult) (msg : String)
    (l : List Article)
    (hfail : Except.error msg ∈ (buildTasks feeds scraping).map env)
    (hok : Except.ok l ∈ (buildTasks feeds scraping).map env)
    (hne : l ≠ []) :
    fetch_category feeds scraping env ≠ [] ∧
    fetch_category feeds scraping env =
      mergeResults (((buildTasks feeds scraping).map env).filter (fun r => r.isOk)) ∧
    ∀ a ∈ fetch_category feeds scraping env,
      ∃ la, Except.ok la ∈ (buildTasks feeds scraping).map env ∧ a ∈ la := by
  refine ⟨?_, ?_, ?_⟩
  · rcases List.exists_mem_of_ne_nil l hne with ⟨a, ha⟩
    have hmem : a ∈ ((buildTasks feeds scraping).map env).flatMap taskArticles :=
      List.mem_flatMap.mpr ⟨Except.ok l, hok, ha⟩
    exact dedup_ne_nil _ (List.ne_nil_of_mem hmem)
  · show mergeResults _ = mergeResults _
    unfold mergeResults
    rw [flatMap_filter_isOk]
  · intro a ha
    have hflat : a ∈ ((buildTasks feeds scraping).map env).flatMap taskArticles :=
      (dedup_sublist _ []).subset ha
    rcases List.mem_flatMap.mp hflat with ⟨r, hr, har⟩
    cases r with
    | error e => simp [taskArticles] at har
    | ok la => exact ⟨la, hr, har⟩

/-- Claim C2 witness: two feeds succeed, the scrape task raises; the result is
the merge of the two feed results and loses nothing to the failure. -/
theorem fetch_category_partial_failure_witness :
    fetch_category feedsW scrapingW envW ≠ [] ∧
    fetch_category feedsW scrapingW envW =
      mergeResults (((buildTasks feedsW scrapingW).map envW).filter (fun r => r.isOk)) ∧
    ∀ a ∈ fetch_category feedsW scrapingW envW,
      ∃ la, Except.ok la ∈ (buildTasks feedsW scrapingW).map envW ∧ a ∈ la :=
  fetch_category_partial_failure feedsW scrapingW envW "boom" [artA]
    (by decide) (by decide) (by decide)

/-- Claim C3: fetch_category with no sources, or with sources whose tasks all
fail (raise, or recover internally to an empty list), returns the empty list
rather than an error. -/
theorem fetch_category_no_sources_or_all_failed (feeds : List FeedDict)
    (scraping : List ScrapeDict) (env : FetchTask → FetchResult)
    (h : (feeds = [] ∧ scraping = []) ∨
      ∀ t ∈ buildTasks feeds scraping,
        (∃ msg, env t = Except.error msg) ∨ env t = Except.ok []) :
    fetch_category feeds scraping env = [] := by
  have hflat : ((buildTasks feeds scraping).map env).flatMap taskArticles = [] := by
    rcases h with ⟨hf, hs⟩ | hall
    · subst hf; subst hs; rfl
    · apply flatMap_eq_nil_of_all_nil
      intro r hr
      rcases List.mem_map.mp hr with ⟨t, ht, rfl⟩
      rcases hall t ht with ⟨msg, hmsg⟩ | hok
      · rw [hmsg]; rfl
      · rw [hok]; rfl
  unfold fetch_category mergeResults
  rw [hflat]
  rfl

/-- Claim C3 witness: empty feed and scraping lists give an empty result. -/
theorem fetch_category_no_sources_or_all_failed_witness :
    fetch_category [] [] envW = [] :=
  fetch_category_no_sources_or_all_failed [] [] envW (Or.inl ⟨rfl, rfl⟩)

/-- Claim C4: the output order is deterministic.  For any completion order of
the tasks (any permutation of the task indices), the timed run equals the
untimed merge in submission order; the task list is the feed tasks in config
order followed by the scrape tasks in config order; and the output is a
subsequence of the submission-order concatenation of the per-task article
lists, so each task's internal order is preserved within its segment. -/
theorem fetch_category_order_deterministic (feeds : List FeedDict)
    (scraping : List ScrapeDict) (env : FetchTask → FetchResult)
    (order : List Nat)
    (h : order.Perm (List.range (buildTasks feeds scraping).length)) :
    fetch_category_timed feeds scraping env order = fetch_category feeds scraping env ∧
    buildTasks feeds scraping =
      feeds.map (fun f => FetchTask.rss f.url (f.name.getD "rss"))
        ++ scraping.filterMap scrapeTask ∧
    (fetch_category feeds scraping env).Sublist
      (((buildTasks feeds scraping).map env).flatMap taskArticles) := by
  refine ⟨?_, rfl, dedup_sublist _ []⟩
  unfold fetch_category_timed fetch_category
  rw [gather_eq _ _ _ h]

/-- Claim C4 witness: with three tasks completing in the order 2, 0, 1, the
result equals the submission-order merge. -/
theorem fetch_category_order_deterministic_witness :
    fetch_category_timed feedsW scrapingW envW [2, 0, 1] =
      fetch_category feedsW scrapingW envW ∧
    buildTasks feedsW scrapingW =
      feedsW.map (fun f => FetchTask.rss f.url (f.name.getD "rss"))
        ++ scrapingW.filterMap scrapeTask ∧
    (fetch_category feedsW scrapingW envW).Sublist
      (((buildTasks feedsW scrapingW).map envW).flatMap taskArticles) :=
  fetch_category_order_deterministic feedsW scrapingW envW [2, 0, 1] (by decide)

/-- Claim C5 counterexample: 201 is a 2xx status, yet _fetch_text does not
return the body there — the code accepts only exactly 200. -/
theorem fetch_text_2xx_counterexample :
    200 ≤ 201 ∧ 201 < 300 ∧
      fetch_text (HttpOutcome.response 201 "body") = none :=
  ⟨by decide, by decide, rfl⟩

/-- Claim C5 amended: _fetch_text returns the body exactly when the status is
200; every other status (other 2xx codes included) and every raised exception
yields none (no data) to the caller instead of an exception. -/
theorem fetch_text_status_200_only (status : Nat) (body : String) :
    fetch_text (HttpOutcome.response status body) =
      (if status = 200 then some body else none) ∧
    fetch_text HttpOutcome.failure = none := by
  constructor
  · by_cases hs : status = 200 <;> simp [fetch_text, hs]
  · rfl

/-- Claim C6 counterexample: with max_age_hours = 0 the filter is the
non-strict cached_at >= now, so a cache state holding a row cached exactly at
the query instant returns that row, not zero rows. -/
theorem get_articles_zero_age_counterexample :
    get_articles (save_articles [] [sampleArticle] 100) none (some 0) 50 100 ≠ [] := by
  decide

/-- Claim C6 amended: get with max_age_hours = 0 keeps exactly the rows with
cached_at >= now; whenever every row in the cache was cached strictly before
the query instant — the case for every previously saved article once the
clock has advanced — it returns zero rows. -/
theorem get_articles_zero_age_all_older (db : List Row) (category : Option Category)
    (limit : Nat) (now : Int)
    (h : ∀ r ∈ db, ∀ t, r.cached_at = some t → t < now) :
    get_articles db category (some 0) limit now = [] := by
  have hfilter : db.filter (rowMatches category (some 0) now) = [] := by
    rw [List.filter_eq_nil_iff]
    intro r hr
    have hfalse : rowMatches category (some 0) now r = false := by
      unfold rowMatches
      cases hc : r.cached_at with
      | none => simp
      | some t =>
          have hlt := h r hr t hc
          have hnotle : ¬(now - 0 * 3600 ≤ t) := by omega
          cases category <;> simp [hnotle, hlt]
    simp [hfalse]
  rw [get_articles, hfilter]
  simp [sortByPubDesc]

/-- Claim C6 amended witness: a single row cached at time 0, queried at time
100 with max_age_hours = 0, yields no rows. -/
theorem get_articles_zero_age_all_older_witness :
    get_articles (save_articles [] [sampleArticle] 0) none (some 0) 50 100 = [] :=
  get_articles_zero_age_all_older _ none 50 100 (by
    intro r hr t ht
    have hr2 : r = rowOfArticle sampleArticle 0 := by
      simpa [save_articles, upsert] using hr
    subst hr2
    simp [rowOfArticle, sampleArticle] at ht
    omega)

/-- Claim C7 counterexample: an article that already carries an old cached_at
(here 0) is saved with that old timestamp, so an immediate get with
max_age_hours = 1 at time 10000 filters it out and returns nothing. -/
theorem cache_round_trip_counterexample :
    get_articles (save_articles [] [staleArticle] 10000) (some staleArticle.category)
      (some 1) 50 10000 = [] := by
  decide

/-- Claim C7 amended: for every article A whose effective stored timestamp
(its own cached_at, else the save time) is within one hour of the query time,
save([A]) into an empty cache followed by get(category = A.category,
max_age_hours = 1) returns an article equal to A on every field except
possibly cached_at. -/
theorem cache_round_trip (a : Article) (saveT getT : Int) (limit : Nat)
    (hage : getT - 1 * 3600 ≤ a.cached_at.getD saveT) (hlim : 0 < limit) :
    ∃ b ∈ get_articles (save_articles [] [a] saveT) (some a.category) (some 1) limit getT,
      sameExceptCachedAt a b := by
  have hsave : save_articles [] [a] saveT = [rowOfArticle a saveT] := rfl
  have hmatch : rowMatches (some a.category) (some 1) getT (rowOfArticle a saveT) = true := by
    simp only [rowMatches, rowOfArticle]
    simp only [decide_eq_true_eq, Bool.and_eq_true, decide_eq_true_iff]
    exact ⟨by trivial, by omega⟩
  cases limit with
  | zero => omega
  | succ n =>
      refine ⟨articleOfRow (rowOfArticle a saveT), ?_, articleOfRow_rowOfArticle a saveT⟩
      rw [get_articles, hsave]
      simp [List.filter_cons, hmatch, sortByPubDesc, insertByPub, List.take_succ_cons]

/-- Claim C7 amended witness: a freshly fetched article (no cached_at) saved
at time 50 and read back at time 100 within the one-hour window. -/
theorem cache_round_trip_witness :
    ∃ b ∈ get_articles (save_articles [] [sampleArticle] 50)
        (some sampleArticle.category) (some 1) 50 100,
      sameExceptCachedAt sampleArticle b :=
  cache_round_trip sampleArticle 50 100 50 (by decide) (by decide)

/-- Claim C8 counterexample: an entry whose id key is present but empty falls
through to the link: presence alone does not decide the priority order,
truthiness does. -/
theorem rss_id_priority_counterexample :
    entryEmptyId.id = some "" ∧
      (entryArticle entryEmptyId "s" Category.us).id = "http://x" :=
  ⟨rfl, by decide⟩

/-- Claim C8 amended: the parsed article's id is the first present and
non-empty field among entry id, link, title, in that priority order; a
present-but-empty id or link is skipped like an absent one, and when id and
link are both absent or empty the id is the stringification of the title. -/
theorem rss_id_first_truthy (e : FeedEntry) (src : String) (cat : Category) :
    (∀ s, e.id = some s → s ≠ "" → (entryArticle e src cat).id = s) ∧
    ((e.id = none ∨ e.id = some "") →
      ∀ s, e.link = some s → s ≠ "" → (entryArticle e src cat).id = s) ∧
    ((e.id = none ∨ e.id = some "") → (e.link = none ∨ e.link = some "") →
      (entryArticle e src cat).id = pyStr e.title) := by
  refine ⟨?_, ?_, ?_⟩
  · intro s hs hne
    simp [entryArticle, pyOr, hs, hne, pyStr]
  · rintro (hid | hid) s hs hne <;> simp [entryArticle, pyOr, hid, hs, hne, pyStr]
  · rintro (hid | hid) (hl | hl) <;> simp [entryArticle, pyOr, hid, hl]

/-- Claim C8 amended witness: a full entry keeps its id, an empty id falls
back to the link, and an entry with nothing stringifies its absent title. -/
theorem rss_id_first_truthy_witness :
    (entryArticle entryFullId "s" Category.us).id = "A" ∧
    (entryArticle entryEmptyId "s" Category.us).id = "http://x" ∧
    (entryArticle entryBare "s" Category.us).id = pyStr entryBare.title :=
  ⟨(rss_id_first_truthy entryFullId "s" Category.us).1 "A" rfl (by decide),
   (rss_id_first_truthy entryEmptyId "s" Category.us).2.1 (Or.inr rfl) "http://x" rfl
     (by decide),
   (rss_id_first_truthy entryBare "s" Category.us).2.2 (Or.inl rfl) (Or.inl rfl)⟩

/-- Claim C9: an entry with no id, no link and no title gets the literal id
"None" (str(None)), and since dedupe keys on id, all such articles across all
sources collapse to exactly one entry in the fetch_category output. -/
theorem rss_missing_id_collapses (e : FeedEntry) (src : String) (cat : Category)
    (h1 : e.id = none) (h2 : e.link = none) (h3 : e.title = none)
    (feeds : List FeedDict) (scraping : List ScrapeDict)
    (env : FetchTask → FetchResult)
    (h4 : ∃ a ∈ ((buildTasks feeds scraping).map env).flatMap taskArticles,
      a.id = "None") :
    (entryArticle e src cat).id = "None" ∧
    (fetch_category feeds scraping env).countP (hasId "None") = 1 := by
  constructor
  · simp [entryArticle, pyOr, h1, h2, h3, pyStr]
  · exact mergeResults_countP_eq_one _ _ h4

/-- Claim C9 witness: two feeds each contribute one id-less entry's article;
the merged output holds exactly one article with id "None". -/
theorem rss_missing_id_collapses_witness :
    (entryArticle entryBare "s" Category.us).id = "None" ∧
    (fetch_category feedsW [] envN).countP (hasId "None") = 1 :=
  rss_missing_id_collapses entryBare "s" Category.us rfl rfl rfl feedsW [] envN
    (by decide)

/-- Claim C10: save stores (a.cached_at or utcnow): the row written for an
article keeps the article's own cached_at when it is set — re-saving an
article read back from the cache does not renew its age — and only an unset
cached_at is replaced by the current time. -/
theorem save_articles_keeps_old_cached_at (db : List Row) (a : Article) (now : Int) :
    (save_articles db [a] now).find? (rowHasId a.id) = some (rowOfArticle a now) ∧
    (rowOfArticle a now).cached_at = some (a.cached_at.getD now) := by
  constructor
  · exact find?_upsert db (rowOfArticle a now)
  · rfl

end NewsApp
